import Mathlib

/-!
Verification of the frame-capture / screenshot-strip engine of the
`youtube-screenshot-monkey` userscript (`src/index.js`).

The JavaScript source is shallowly embedded: numbers that stay integral are
modelled as `Nat`, playback times as `Rat`, and the one place where the code
can divide by zero uses an explicit model `JsNum` of the JavaScript number
line (finite / NaN / Infinity).  DOM collections (the screenshot strip, the
overlay elements) are modelled as Lean lists; the random identifiers drawn by
`generateElementId` and the images fetched from the network are passed in as
explicit parameters, since they are the only nondeterminism in the code.
-/

namespace YtGr4

/-- Model of a JavaScript number as produced by the arithmetic in
`captureFrame`: either a finite (exact) value, `NaN`, or a signed infinity.
Finite arithmetic is modelled exactly over `ℚ`. -/
inductive JsNum where
  | fin (q : ℚ)
  | nan
  | inf
  | negInf
deriving DecidableEq, Repr

/-- JavaScript division `x / y` of two finite numbers: division by zero gives
`NaN` when the numerator is zero and a signed infinity otherwise. -/
def jsDiv (x y : ℚ) : JsNum :=
  if y = 0 then
    if x = 0 then .nan else if 0 < x then .inf else .negInf
  else .fin (x / y)

/-- JavaScript `Math.round`: nearest integer, halves rounding up (towards
`+∞`); `NaN` and the infinities are returned unchanged. -/
def jsRound : JsNum → JsNum
  | .fin q => .fin ((⌊q + 1 / 2⌋ : ℤ) : ℚ)
  | .nan => .nan
  | .inf => .inf
  | .negInf => .negInf

/-- JavaScript `Math.trunc` restricted to the non-negative playback times the
script feeds it, landing in `ℕ`. -/
def jsTrunc (t : ℚ) : ℕ := (⌊t⌋).toNat

/-- The fields of the HTML5 video element read by `captureFrame`
(`src/index.js:359`): native resolution, on-screen width and playback time. -/
structure VideoStream where
  videoWidth : ℕ
  videoHeight : ℕ
  clientWidth : ℕ
  currentTime : ℚ
deriving DecidableEq, Repr

/-- Provenance of a canvas bitmap: drawn from the live video at a playback
time (`ctx.drawImage(videoStream, …)`) or from the video's default thumbnail
image (`getCanvas({ image: metaData.thumbnail, … })`). -/
inductive CanvasSrc where
  | video (t : ℚ)
  | thumb
deriving DecidableEq, Repr

/-- The `CanvasImage` record returned by `getImageCanvasWithMeta`
(`src/index.js:339`): the drawn canvas plus width, height and time.  The
`time || 0` default in the source is the identity on the (non-NaN) rationals
modelled here. -/
structure CanvasImage where
  canvas : CanvasSrc
  width : ℕ
  height : JsNum
  time : ℚ
deriving DecidableEq, Repr

/-- Function `captureFrame` (`src/index.js:358-365`): reads the video's dimensions and
time; when `isResized` the width is the on-screen `clientWidth` and the
height is `Math.round((videoHeight * clientWidth) / videoWidth)`, otherwise
the native `videoWidth`/`videoHeight` are used. -/
def captureFrame (videoStream : VideoStream) (isResized : Bool) : CanvasImage :=
  let getResizedHeight :=
    jsRound (jsDiv ((videoStream.videoHeight : ℚ) * (videoStream.clientWidth : ℚ))
      (videoStream.videoWidth : ℚ))
  { canvas := .video videoStream.currentTime
    width := if isResized then videoStream.clientWidth else videoStream.videoWidth
    height := if isResized then getResizedHeight else .fin videoStream.videoHeight
    time := videoStream.currentTime }

/-- Rounding to the nearest integer with halves up, on exact rationals: the
resize formula of the specification (`round(nativeH * displayedW /
nativeW)`), written independently of the `JsNum` plumbing. -/
def roundHalfUp (q : ℚ) : ℤ := ⌊q + 1 / 2⌋

/-- One cell of the screenshot strip, as built by `addImageToStrip`
(`src/index.js:942-960`): the image container's DOM id is
`` `screenshot-${generateElementId(6)}-${time}` `` (`src/index.js:842`), so an
entry carries the freshly drawn random identifier, the (raw, fractional)
frame time interpolated into the id, the frame width shown in the width
overlay, and the canvas it wraps.  `addImageToStrip` destructures only
`{ canvas, time, width }` from the frame; the height is not stored. -/
structure Entry where
  rand : String
  time : ℚ
  width : ℕ
  src : CanvasSrc
deriving DecidableEq, Repr

/-- The two components of an entry's DOM id
`` `screenshot-${generateElementId(6)}-${time}` ``: the random identifier and
the interpolated time.  JavaScript's decimal printing is injective on
numbers, so two DOM ids are equal exactly when these pairs are equal. -/
def entryId (e : Entry) : String × ℚ := (e.rand, e.time)

/-- Whether an entry is a real captured frame (as opposed to the default
thumbnail cell seeded by `addDefaultThumbnail`). -/
def Entry.isCapture (e : Entry) : Bool :=
  match e.src with
  | .video _ => true
  | .thumb => false

/-- The process-wide state the capture/strip/navigation code mutates: the
strip container (`#screenshot-strip`; `none` when absent from the page) with
its ordered child entries, and the `metaData.href` / `metaData.seekingByScript`
globals (`src/index.js:15-23`).  The remaining `metaData` fields (title,
duration, id, short url, thumbnail) are presentational and are not tracked. -/
structure SessionState where
  strip : Option (List Entry)
  href : String
  seekingByScript : Bool
deriving DecidableEq, Repr

/-- The state at content-script startup: no strip, empty recorded address,
flag clear. -/
def initialSession : SessionState := { strip := none, href := "", seekingByScript := false }

/-- The entries currently in the strip (empty when no container exists). -/
def stripEntries (s : SessionState) : List Entry := s.strip.getD []

/-- The captured-frame entries currently in the strip, excluding the seeded
default-thumbnail cell. -/
def captureEntries (s : SessionState) : List Entry :=
  (stripEntries s).filter Entry.isCapture

/-- One user capture request: the video element found under `.video-stream`,
the `isResized` flag of the key pressed, and the value `generateElementId(6)`
returns for this append (the random draw, passed in explicitly). -/
structure Request where
  v : VideoStream
  isResized : Bool
  rand : String
deriving DecidableEq, Repr

/-- The strip entry `addImageToStrip` appends for a captured frame: container
id parts `(rand, frame.time)`, the frame's width, and the canvas drawn from
the video. -/
def entryOfRequest (r : Request) : Entry :=
  let frame := captureFrame r.v r.isResized
  { rand := r.rand, time := frame.time, width := frame.width, src := frame.canvas }

/-- The default-thumbnail entry seeded by `initScreenshotStrip` via
`addDefaultThumbnail` (`src/index.js:980-996`): `addImageToStrip({ canvas,
width, time: 0 })` with the thumbnail's canvas, so time `0`, the thumbnail's
width, and a fresh random id of its own. -/
def thumbnailEntry (thumbRand : String) (thumbWidth : ℕ) : Entry :=
  { rand := thumbRand, time := 0, width := thumbWidth, src := .thumb }

/-- Function `getScreenshotImage` (`src/index.js:1003-1015`): capture a frame; if
`frame.width` is falsy (zero) do nothing; otherwise lazily create the strip —
seeding it with the default-thumbnail entry — and append the new frame's
entry at the tail.  `thumbRand`/`thumbWidth` are the random draw and
thumbnail width used if the lazy initialisation runs. -/
def getScreenshotImage (thumbRand : String) (thumbWidth : ℕ) (s : SessionState)
    (r : Request) : SessionState :=
  let frame := captureFrame r.v r.isResized
  if frame.width = 0 then s
  else
    let base : List Entry :=
      match s.strip with
      | none => [thumbnailEntry thumbRand thumbWidth]
      | some l => l
    { s with strip := some (base ++ [entryOfRequest r]) }

/-- A run of consecutive capture requests against the session state (the
append steps complete in this order; the code serialises them through the
single-threaded event loop). -/
def runCaptures (thumbRand : String) (thumbWidth : ℕ) :
    SessionState → List Request → SessionState
  | s, [] => s
  | s, r :: rs => runCaptures thumbRand thumbWidth (getScreenshotImage thumbRand thumbWidth s r) rs

/-- Function `destroyStrip` (`src/index.js:281-285`): remove the strip container if it
exists. -/
def destroyStrip (s : SessionState) : SessionState := { s with strip := none }

/-- Occurrence of a pattern inside a character list, by scanning from the
left. -/
def listIncludes (pat : List Char) : List Char → Bool
  | [] => decide (pat = [])
  | c :: rest => pat.isPrefixOf (c :: rest) || listIncludes pat rest

/-- JavaScript `s.includes(pat)`. -/
def strIncludes (s pat : String) : Bool := listIncludes pat.toList s.toList

/-- Function `isWatchUrl` (`src/index.js:1020`): the address contains `/watch?`. -/
def isWatchUrl (loc : String) : Bool := strIncludes loc "/watch?"

/-- The synchronous prefix of `updateIdUrlsThumbnail` (`src/index.js:233-240`):
records the current address in `metaData.href` (the title, duration, id,
short-url and thumbnail updates touch only untracked presentational fields).
The strip and the `seekingByScript` flag are untouched. -/
def updateIdUrlsThumbnail (s : SessionState) (loc : String) : SessionState :=
  { s with href := loc }

/-- Function `onUrlChange` (`src/index.js:291-295`): destroy the strip, restore UI
visibility (untracked), and rebuild the metadata — whose synchronous prefix
records the new address. -/
def onUrlChange (s : SessionState) (loc : String) : SessionState :=
  updateIdUrlsThumbnail (destroyStrip s) loc

/-- The mutation-observer callback `doAfterMutation` (`src/index.js:1108-1125`)
with the current `location.href` passed in: ignore non-watch pages; on first
startup record the address; if the address changed and the change was not
script-initiated run `onUrlChange`; if the `seekingByScript` flag is set,
silently update the recorded address and clear the flag.  The trailing
`updateTitleDuration(mutations)` call refreshes only the untracked
title/duration globals. -/
def doAfterMutation (s : SessionState) (loc : String) : SessionState :=
  if ¬ isWatchUrl loc then s
  else
    let s1 := if s.href = "" then updateIdUrlsThumbnail s loc else s
    if s1.href ≠ loc ∧ ¬ s1.seekingByScript then onUrlChange s1 loc
    else if s1.seekingByScript then { s1 with href := loc, seekingByScript := false }
    else s1

/-- Function `removeImageEventHandler` (`src/index.js:524-530`) acting on the strip's
child list, with `i` the position of the clicked entry's container: if the
strip has exactly one child the whole container is removed (`none`),
otherwise only the clicked child is removed. -/
def removeImageEventHandler (strip : List Entry) (i : ℕ) : Option (List Entry) :=
  if strip.length = 1 then none else some (strip.eraseIdx i)

/-- The fixed overlay-selector list of `toggleUIVisibility`
(`src/index.js:248-266`). -/
def singleIdentificators : List String :=
  [".ytp-gradient-top",
   ".ytp-gradient-bottom",
   ".ytp-chrome-top",
   ".ytp-chrome-bottom",
   ".ytp-ce-channel.ytp-ce-top-left-quad",
   ".ytp-ce-channel.ytp-ce-top-right-quad",
   ".ytp-ce-channel.ytp-ce-bottom-left-quad",
   ".ytp-ce-channel.ytp-ce-bottom-right-quad",
   ".ytp-ce-video.ytp-ce-top-left-quad",
   ".ytp-ce-video.ytp-ce-top-right-quad",
   ".ytp-ce-video.ytp-ce-bottom-left-quad",
   ".ytp-ce-video.ytp-ce-bottom-right-quad",
   ".ytp-iv-player-content",
   ".iv-branding",
   ".ytp-ce-playlist",
   ".html5-endscreen",
   ".ytp-paid-content-overlay"]

/-- Function `toggleUIVisibility` (`src/index.js:247-274`).  `query` models
`document.querySelector` restricted to inline `display` values: `none` when
the selector matches no element, `some d` for an element whose current
`style.display` is `d`.  The code reads `elements[0].style.display` to infer
the current state — when `elements[0]` is `null` that member access throws a
`TypeError`, modelled as `none` — then writes the new state to every present
element (`element ? (element.style.display = state) : ''`), skipping absent
ones.  The result is the new per-selector display list. -/
def toggleUIVisibility (query : String → Option String) (restore : Bool) :
    Option (List (Option String)) :=
  let elements := singleIdentificators.map query
  match elements.head? with
  | none => none
  | some none => none
  | some (some invisible) =>
    let state := if invisible ≠ "" ∨ restore then "" else "none"
    some (elements.map (Option.map fun _ => state))

/-- The decimal digit character for `d < 10` (the only inputs the embedding
feeds it). -/
def digitChar (d : ℕ) : Char :=
  if d = 0 then '0' else if d = 1 then '1' else if d = 2 then '2' else if d = 3 then '3'
  else if d = 4 then '4' else if d = 5 then '5' else if d = 6 then '6' else if d = 7 then '7'
  else if d = 8 then '8' else if d = 9 then '9' else '*'

/-- Fuel-driven accumulator loop producing the decimal digits of `n` in front
of `acc`; structural in the fuel so that it evaluates by reduction. -/
def natDigitsAux : ℕ → ℕ → List Char → List Char
  | 0, _, acc => acc
  | fuel + 1, n, acc =>
    if n < 10 then digitChar n :: acc
    else natDigitsAux fuel (n / 10) (digitChar (n % 10) :: acc)

/-- The decimal digits of `n`, most significant first (`n + 1` is always
enough fuel). -/
def natDigits (n : ℕ) : List Char := natDigitsAux (n + 1) n []

/-- Reference recursion for `natDigits`, convenient for induction. -/
def natDigitsRec (n : ℕ) : List Char :=
  if _h : n < 10 then [digitChar n]
  else natDigitsRec (n / 10) ++ [digitChar (n % 10)]
termination_by n
decreasing_by exact Nat.div_lt_self (by omega) (by omega)

/-- JavaScript `Number.prototype.toString` on the non-negative integers the
script prints: plain decimal digits. -/
def natToStr (n : ℕ) : String := String.mk (natDigits n)

/-- Value of a list of decimal digit characters, most significant first. -/
def digitsVal (l : List Char) : ℕ := l.foldl (fun acc c => acc * 10 + (c.toNat - 48)) 0

/-- JavaScript `parseInt`, modelled for the plain decimal strings this script
feeds it (no sign, radix-prefix or whitespace handling): the value of the
leading run of digits, `none` (`NaN`) when there is no leading digit. -/
def jsParseInt (s : String) : Option ℕ :=
  let ds := s.toList.takeWhile Char.isDigit
  if ds.isEmpty then none else some (digitsVal ds)

/-- JavaScript `String.prototype.padStart` with a single pad character. -/
def padStart (s : String) (targetLength : ℕ) (padChar : Char) : String :=
  String.mk (List.replicate (targetLength - s.length) padChar) ++ s

/-- A number rendered and zero-padded to at least two digits, as
`a.toString().padStart(2, '0')` does. -/
def pad2 (n : ℕ) : String := padStart (natToStr n) 2 '0'

/-- JavaScript `String.prototype.split` on a one-character separator, on the
underlying character list. -/
def splitCharList (sep : Char) : List Char → List (List Char)
  | [] => [[]]
  | c :: cs =>
    match splitCharList sep cs with
    | [] => [[]]
    | h :: t => if c = sep then [] :: h :: t else (c :: h) :: t

/-- JavaScript `s.split(sep)` for a one-character separator. -/
def jsSplit (s : String) (sep : Char) : List String :=
  (splitCharList sep s.toList).map String.mk

/-- JavaScript `Array.prototype.join`. -/
def jsJoin (sep : String) : List String → String
  | [] => ""
  | [x] => x
  | x :: y :: xs => x ++ sep ++ jsJoin sep (y :: xs)

/-- The JavaScript `\s` character class (whitespace as matched by
`replace(/\s/g, …)`). -/
def isJsSpace (c : Char) : Bool :=
  decide (c.toNat ∈ [9, 10, 11, 12, 13, 32, 160, 5760, 8232, 8233, 8239, 8287, 12288, 65279]
    ∨ (8192 ≤ c.toNat ∧ c.toNat ≤ 8202))

/-- JavaScript `String.prototype.replace` with a global single-character
class pattern and a single-character replacement: a character-wise map. -/
def mapChars (f : Char → Char) (s : String) : String := String.mk (s.toList.map f)

/-- The unit suffixes of `formatDurationTime` (`timeNotations` in
`src/index.js:116`), least significant first. -/
def timeUnitNames : List String := ["s", "m", "h", "d"]

/-- Function `formatDurationTime` (`src/index.js:111-121`): split the colon-separated
duration, pair each field (starting from the last) with `s`,`m`,`h`,`d`,
render `parseInt(val)` with its unit when truthy (nonzero and parseable) and
`''` otherwise, drop the empty strings and join the survivors back in
original order with single spaces.  `''` input returns `''` early; the
`!split.length` guard returning `null` (`none`) is unreachable. -/
def formatDurationTime (duration : String) : Option String :=
  if duration = "" then some ""
  else
    let split := jsSplit duration ':'
    if split.length = 0 then none
    else
      let reversed := split.reverse
      let notated := reversed.enum.map fun p =>
        match jsParseInt p.2 with
        | some n => if n ≠ 0 then natToStr n ++ timeUnitNames.getD p.1 "undefined" else ""
        | none => ""
      let strippedZeroes := notated.filter (fun x => x ≠ "")
      some (jsJoin " " strippedZeroes.reverse)

/-- Modelled from the spec: the claim's reading of duration formatting, in
which only *leading* zero-valued units are omitted — fields are paired with
`d`,`h`,`m`,`s` in descending order aligned at the seconds end, the longest
prefix of zero-valued units is dropped, and every remaining field is emitted
even when zero. -/
def formatDurationLeadingOnly (duration : String) : String :=
  let fields := jsSplit duration ':'
  let vals := fields.map fun f => (jsParseInt f).getD 0
  let units := timeUnitNames.reverse.drop (4 - vals.length)
  let kept := (vals.zip units).dropWhile fun p => p.1 == 0
  jsJoin " " (kept.map fun p => natToStr p.1 ++ p.2)

/-- Function `hoursMinutesSeconds` (`src/index.js:374-382`): the
`[3600, 60].reduceRight` pipeline builds the nested divider functions `p0`,
`p1`, `p2`; applied to the seconds it yields `[h, m, s]`, each rendered
zero-padded to two digits and joined with colons. -/
def hoursMinutesSeconds (seconds : ℕ) : String :=
  let p0 : ℕ → List ℕ := fun r => [r]
  let p1 : ℕ → List ℕ := fun r => r / 60 :: p0 (r % 60)
  let p2 : ℕ → List ℕ := fun r => r / 3600 :: p1 (r % 3600)
  jsJoin ":" ((p2 seconds).map fun a => padStart (natToStr a) 2 '0')

/-- The `frame-time` attribute written by `createSaveOverlayElement`
(`src/index.js:765-779`): `hoursMinutesSeconds(Math.trunc(time))` with the
colons replaced by underscores via `split(':').join('_')`. -/
def saveOverlayFrameTime (time : ℚ) : String :=
  jsJoin "_" (jsSplit (hoursMinutesSeconds (jsTrunc time)) ':')

/-- The visible text of the timestamp overlay built by
`createTimeOverlayElement` (`src/index.js:569-627`):
`hoursMinutesSeconds(Math.trunc(time))`. -/
def timeOverlayText (time : ℚ) : String := hoursMinutesSeconds (jsTrunc time)

/-- Function `getImageName` (`src/index.js:422-430`) on the already-resolved video
title (the `setTitle` refresh re-reads the page and is outside the pure
naming path): default the missing-or-empty `frame-time` attribute to
`00_00`, replace its underscores by dashes, join the title and the dashed
time with `" - "`, replace every whitespace character by an underscore, and
append `.png`. -/
def getImageName (title : String) (frameTimeAttr : Option String) : String :=
  let videoTime :=
    match frameTimeAttr with
    | none => "00_00"
    | some s => if s = "" then "00_00" else s
  let videoTimeDashed := mapChars (fun c => if c = '_' then '-' else c) videoTime
  let videoTitleTextWithTime := title ++ " - " ++ videoTimeDashed
  let videoTitleTextWithTimeNoSpaces :=
    mapChars (fun c => if isJsSpace c then '_' else c) videoTitleTextWithTime
  videoTitleTextWithTimeNoSpaces ++ ".png"

/-- Written from the claim's words: the video title joined with the entry's
frame-time attribute (underscores replaced by dashes) by `" - "`, every
whitespace character of the combined string replaced by an underscore,
followed by `.png`. -/
def specFileName (title : String) (frameTime : String) : String :=
  mapChars (fun c => if isJsSpace c then '_' else c)
    (title ++ " - " ++ mapChars (fun c => if c = '_' then '-' else c) frameTime) ++ ".png"

/-- The character set of `generateElementId` (`src/index.js:393-401`). -/
def jsIdCharSet : String :=
  "ABCDEFGHIJKLMNOPQRSTUVWXYZabcdefghijklmnopqrstuvwxyz0123456789-_☺"

/-- Function `generateElementId` with the default character set: each position takes
the character at index `~~(Math.random() * chars.length)`; the pre-drawn
indices are passed in as `draws`. -/
def generateElementId (idLength : ℕ) (draws : ℕ → Fin jsIdCharSet.length) : String :=
  String.mk ((List.range idLength).map fun i => jsIdCharSet.toList.getD (draws i).val 'A')

/-- C1: for a source with positive native width, `captureFrame` satisfies the
resize formula exactly: with `isResized = false` the frame keeps the native
`videoWidth`/`videoHeight`; with `isResized = true` the width is the
displayed `clientWidth` and the height is `round(videoHeight * clientWidth /
videoWidth)` computed in exact arithmetic. -/
theorem captureFrame_resize_formula (v : VideoStream) (hw : 0 < v.videoWidth) :
    ((captureFrame v false).width = v.videoWidth ∧
      (captureFrame v false).height = .fin v.videoHeight) ∧
    ((captureFrame v true).width = v.clientWidth ∧
      (captureFrame v true).height =
        .fin ((roundHalfUp ((v.videoHeight * v.clientWidth : ℚ) / v.videoWidth) : ℤ) : ℚ)) := by
  have hq : (v.videoWidth : ℚ) ≠ 0 := by
    have : v.videoWidth ≠ 0 := Nat.pos_iff_ne_zero.mp hw
    exact_mod_cast this
  constructor
  · exact ⟨rfl, rfl⟩
  · refine ⟨rfl, ?_⟩
    simp [captureFrame, jsDiv, hq, jsRound, roundHalfUp]

/-- Witness for `captureFrame_resize_formula` at a concrete 1920×1080 video
displayed 640 wide. -/
theorem captureFrame_resize_formula_witness :
    (captureFrame ⟨1920, 1080, 640, 0⟩ true).width = 640 ∧
    (captureFrame ⟨1920, 1080, 640, 0⟩ true).height = .fin 360 := by
  have h := captureFrame_resize_formula ⟨1920, 1080, 640, 0⟩ (by decide)
  refine ⟨h.2.1, ?_⟩
  rw [h.2.2]
  norm_num [roundHalfUp]

/-- C2, counterexample: a capture request with native width `0` but the
`resized` flag set and a displayed width of `640`.  `captureFrame` then
reports `frame.width = 640`, the falsy-width guard in `getScreenshotImage`
does not fire, and the strip store is mutated: a container is created (seeded
with the thumbnail cell) and an entry is appended — contradicting the claim
that a zero native width prevents any mutation regardless of the flag. -/
theorem getScreenshotImage_zero_native_width_mutates :
    (getScreenshotImage "Qw3rTy" 480 initialSession
        ⟨⟨0, 0, 640, 0⟩, true, "AbC12x"⟩).strip =
      some [thumbnailEntry "Qw3rTy" 480, ⟨"AbC12x", 0, 640, .video 0⟩] ∧
    getScreenshotImage "Qw3rTy" 480 initialSession
        ⟨⟨0, 0, 640, 0⟩, true, "AbC12x"⟩ ≠ initialSession := by
  constructor
  · rfl
  · intro h
    have : (initialSession).strip = some [thumbnailEntry "Qw3rTy" 480,
        ⟨"AbC12x", 0, 640, .video 0⟩] := by rw [← h]; rfl
    simp [initialSession] at this

/-- C2, amended: `getScreenshotImage` produces no frame and leaves the whole
session state (in particular the strip store) unchanged exactly when the
computed frame width is zero — the native width when the `resized` flag is
false, the displayed (client) width when it is true.  A zero native width
alone does not prevent capture in resized mode. -/
theorem getScreenshotImage_width_guard (thumbRand : String) (thumbWidth : ℕ)
    (s : SessionState) (r : Request)
    (h : (r.isResized = false ∧ r.v.videoWidth = 0) ∨
         (r.isResized = true ∧ r.v.clientWidth = 0)) :
    getScreenshotImage thumbRand thumbWidth s r = s := by
  have hw : (captureFrame r.v r.isResized).width = 0 := by
    rcases h with ⟨hb, hv⟩ | ⟨hb, hv⟩ <;> simp [captureFrame, hb, hv]
  simp [getScreenshotImage, hw]

/-- Witness for `getScreenshotImage_width_guard`: an unloaded video (native
width `0`) captured without the resize flag leaves the fresh session
untouched. -/
theorem getScreenshotImage_width_guard_witness :
    getScreenshotImage "Qw3rTy" 480 initialSession
      ⟨⟨0, 0, 640, 0⟩, false, "AbC12x"⟩ = initialSession :=
  getScreenshotImage_width_guard "Qw3rTy" 480 initialSession
    ⟨⟨0, 0, 640, 0⟩, false, "AbC12x"⟩ (Or.inl ⟨rfl, rfl⟩)

/-- Every entry appended for a capture request wraps a canvas drawn from the
video, so it counts as a capture entry. -/
theorem entryOfRequest_isCapture (r : Request) : (entryOfRequest r).isCapture = true := rfl

/-- Running captures against an existing strip appends their entries at the
tail, in completion order, and touches nothing else. -/
theorem runCaptures_strip_some (thumbRand : String) (thumbWidth : ℕ)
    (reqs : List Request) (s : SessionState) (l : List Entry)
    (hs : s.strip = some l)
    (hsucc : ∀ r ∈ reqs, (captureFrame r.v r.isResized).width ≠ 0) :
    (runCaptures thumbRand thumbWidth s reqs).strip =
      some (l ++ reqs.map entryOfRequest) := by
  induction reqs generalizing s l with
  | nil => simpa [runCaptures] using hs
  | cons r rs ih =>
    have hr : (captureFrame r.v r.isResized).width ≠ 0 := hsucc r (by simp)
    have hstep : (getScreenshotImage thumbRand thumbWidth s r).strip =
        some (l ++ [entryOfRequest r]) := by
      simp [getScreenshotImage, hr, hs]
    have := ih (getScreenshotImage thumbRand thumbWidth s r) (l ++ [entryOfRequest r]) hstep
      (fun x hx => hsucc x (by simp [hx]))
    simpa [runCaptures] using this

/-- Starting from a fresh session, a nonempty run of successful captures
leaves the strip as the seeded thumbnail cell followed by the capture
entries, in completion order. -/
theorem runCaptures_fresh_strip (thumbRand : String) (thumbWidth : ℕ)
    (reqs : List Request)
    (hsucc : ∀ r ∈ reqs, (captureFrame r.v r.isResized).width ≠ 0)
    (hne : reqs ≠ []) :
    (runCaptures thumbRand thumbWidth initialSession reqs).strip =
      some (thumbnailEntry thumbRand thumbWidth :: reqs.map entryOfRequest) := by
  match reqs, hne with
  | r :: rs, _ =>
    have hr : (captureFrame r.v r.isResized).width ≠ 0 := hsucc r (by simp)
    have hstep : (getScreenshotImage thumbRand thumbWidth initialSession r).strip =
        some ([thumbnailEntry thumbRand thumbWidth] ++ [entryOfRequest r]) := by
      simp [getScreenshotImage, hr, initialSession]
    have := runCaptures_strip_some thumbRand thumbWidth rs _ _ hstep
      (fun x hx => hsucc x (by simp [hx]))
    simpa [runCaptures] using this

/-- The capture entries after a fresh run are exactly the requested frames'
entries, in completion order (the seeded thumbnail cell is filtered out). -/
theorem captureEntries_runCaptures (thumbRand : String) (thumbWidth : ℕ)
    (reqs : List Request)
    (hsucc : ∀ r ∈ reqs, (captureFrame r.v r.isResized).width ≠ 0) :
    captureEntries (runCaptures thumbRand thumbWidth initialSession reqs) =
      reqs.map entryOfRequest := by
  cases reqs with
  | nil => simp [runCaptures, captureEntries, stripEntries, initialSession]
  | cons r rs =>
    have h := runCaptures_fresh_strip thumbRand thumbWidth (r :: rs) hsucc (by simp)
    simp only [captureEntries, stripEntries, h, Option.getD_some, List.filter_cons]
    have hthumb : (thumbnailEntry thumbRand thumbWidth).isCapture = false := rfl
    simp only [hthumb, Bool.false_eq_true, if_false, List.map_cons]
    refine (List.filter_eq_self.mpr ?_)
    intro e he
    rcases List.mem_cons.mp he with rfl | he'
    · exact entryOfRequest_isCapture r
    · rcases List.mem_map.mp he' with ⟨x, _, rfl⟩
      exact entryOfRequest_isCapture x

/-- C3: append is monotonic.  Starting from a fresh session, after `N`
successful captures (each one's computed frame width nonzero) with no
removals, the strip's capture entries are exactly the `N` requested frames in
the order their append steps completed — and the full strip is the seeded
default-thumbnail cell followed by those `N` entries. -/
theorem strip_append_monotonic (thumbRand : String) (thumbWidth : ℕ)
    (reqs : List Request)
    (hsucc : ∀ r ∈ reqs, (captureFrame r.v r.isResized).width ≠ 0) :
    captureEntries (runCaptures thumbRand thumbWidth initialSession reqs) =
      reqs.map entryOfRequest ∧
    (captureEntries (runCaptures thumbRand thumbWidth initialSession reqs)).length =
      reqs.length ∧
    (reqs ≠ [] →
      (runCaptures thumbRand thumbWidth initialSession reqs).strip =
        some (thumbnailEntry thumbRand thumbWidth :: reqs.map entryOfRequest)) := by
  have hcap := captureEntries_runCaptures thumbRand thumbWidth reqs hsucc
  exact ⟨hcap, by simp [hcap], runCaptures_fresh_strip thumbRand thumbWidth reqs hsucc⟩

/-- Witness for `strip_append_monotonic`: two successful captures on a
1920×1080 video produce exactly their two entries, in order, after the
seeded thumbnail. -/
theorem strip_append_monotonic_witness :
    captureEntries (runCaptures "ThRnd1" 480 initialSession
        [⟨⟨1920, 1080, 640, 7⟩, false, "RndA01"⟩, ⟨⟨1920, 1080, 640, 9⟩, true, "RndB02"⟩]) =
      [⟨"RndA01", 7, 1920, .video 7⟩, ⟨"RndB02", 9, 640, .video 9⟩] := by
  have h := strip_append_monotonic "ThRnd1" 480
    [⟨⟨1920, 1080, 640, 7⟩, false, "RndA01"⟩, ⟨⟨1920, 1080, 640, 9⟩, true, "RndB02"⟩]
    (by intro r hr; fin_cases hr <;> decide)
  rw [h.1]
  rfl

/-- C4: the self-initiated-navigation exemption.  When the mutation observer
fires on a watch page while `seekingByScript` is set, `doAfterMutation`
performs no strip teardown — the strip and its entries are exactly those of
the previous state — silently updates the recorded address to the current
one, and clears the flag (it is `false` in the resulting state, so the
clearing happens exactly once per handshake). -/
theorem doAfterMutation_seeking_exemption (s : SessionState) (loc : String)
    (hwatch : isWatchUrl loc = true) (hflag : s.seekingByScript = true) :
    (doAfterMutation s loc).strip = s.strip ∧
    (doAfterMutation s loc).href = loc ∧
    (doAfterMutation s loc).seekingByScript = false := by
  by_cases hh : s.href = "" <;>
    simp [doAfterMutation, hwatch, hh, updateIdUrlsThumbnail, hflag]

/-- Witness for `doAfterMutation_seeking_exemption`: a timestamp bump
`…&t=12s` observed while the flag is set leaves a one-entry strip in place,
records the new address and clears the flag. -/
theorem doAfterMutation_seeking_exemption_witness :
    isWatchUrl "https://www.youtube.com/watch?v=abc&t=12s" = true ∧
    (doAfterMutation
        { strip := some [⟨"RndA01", 7, 1920, .video 7⟩],
          href := "https://www.youtube.com/watch?v=abc",
          seekingByScript := true }
        "https://www.youtube.com/watch?v=abc&t=12s").strip =
      some [⟨"RndA01", 7, 1920, .video 7⟩] ∧
    (doAfterMutation
        { strip := some [⟨"RndA01", 7, 1920, .video 7⟩],
          href := "https://www.youtube.com/watch?v=abc",
          seekingByScript := true }
        "https://www.youtube.com/watch?v=abc&t=12s").seekingByScript = false := by
  have hw : isWatchUrl "https://www.youtube.com/watch?v=abc&t=12s" = true := by decide
  have h := doAfterMutation_seeking_exemption
    { strip := some [⟨"RndA01", 7, 1920, .video 7⟩],
      href := "https://www.youtube.com/watch?v=abc",
      seekingByScript := true }
    "https://www.youtube.com/watch?v=abc&t=12s" hw rfl
  exact ⟨hw, h.1, h.2.2⟩

/-- C5: removing a strip entry.  If the clicked entry is the sole child of
the strip, the whole container is torn down (`none`, not an emptied `some
[]`); otherwise the container survives and the remaining entries are exactly
the others, undisturbed in relative order (the prefix before and the suffix
after the removed position). -/
theorem removeImage_spec (l : List Entry) (i : ℕ) (hi : i < l.length) :
    (l.length = 1 → removeImageEventHandler l i = none) ∧
    (l.length ≠ 1 →
      removeImageEventHandler l i = some (l.take i ++ l.drop (i + 1)) ∧
      (l.take i ++ l.drop (i + 1)).length = l.length - 1) := by
  constructor
  · intro h1
    simp [removeImageEventHandler, h1]
  · intro hne
    refine ⟨by simp [removeImageEventHandler, hne, List.eraseIdx_eq_take_drop_succ], ?_⟩
    rw [← List.eraseIdx_eq_take_drop_succ]
    exact List.length_eraseIdx_of_lt hi

/-- Witness for `removeImage_spec`: removing the first of two entries keeps
the container with the second entry; the bound is discharged at the concrete
list. -/
theorem removeImage_spec_witness :
    removeImageEventHandler [⟨"RndA01", 7, 1920, .video 7⟩, ⟨"RndB02", 9, 640, .video 9⟩] 0 =
      some [⟨"RndB02", 9, 640, .video 9⟩] := by
  have h := removeImage_spec [⟨"RndA01", 7, 1920, .video 7⟩, ⟨"RndB02", 9, 640, .video 9⟩] 0
    (by decide)
  exact (h.2 (by decide)).1

/-- C6, counterexample: a page where every overlay element except the
first-listed one (`.ytp-gradient-top`) is present.  The absent first element
makes the state read `elements[0].style.display` throw, so the operation does
not complete without error even though the absent subset is a subset of the
selector list. -/
theorem toggleUIVisibility_absent_first_fails :
    toggleUIVisibility
      (fun sel => if sel = ".ytp-gradient-top" then none else some "") false = none ∧
    toggleUIVisibility (fun _ => none) false = none := by
  constructor <;> rfl

/-- C6, amended: whenever the element for the first listed selector
(`.ytp-gradient-top`) is present, the toggle completes without error, in
either direction including restore: absent elements are skipped (they stay
absent), and every present element's display is set uniformly to the new
state (`""` when the reference element was hidden or `restore` is set,
`"none"` otherwise).  When the first-listed element is absent the state read
throws instead. -/
theorem toggleUIVisibility_first_present (query : String → Option String)
    (restore : Bool) (d : String) (h : query ".ytp-gradient-top" = some d) :
    toggleUIVisibility query restore =
      some ((singleIdentificators.map query).map
        (Option.map fun _ => if d ≠ "" ∨ restore then "" else "none")) ∧
    (∀ i : ℕ, (singleIdentificators.map query)[i]? = some none →
      ((singleIdentificators.map query).map
        (Option.map fun _ => if d ≠ "" ∨ restore then "" else "none"))[i]? = some none) ∧
    (∀ (i : ℕ) (d' : String), (singleIdentificators.map query)[i]? = some (some d') →
      ((singleIdentificators.map query).map
        (Option.map fun _ => if d ≠ "" ∨ restore then "" else "none"))[i]? =
        some (some (if d ≠ "" ∨ restore then "" else "none"))) := by
  have hhead : (singleIdentificators.map query).head? = some (query ".ytp-gradient-top") := rfl
  refine ⟨?_, ?_, ?_⟩
  · simp only [toggleUIVisibility, hhead, h]
  · intro i hi
    rw [List.getElem?_map, hi]
    rfl
  · intro i d' hi
    rw [List.getElem?_map, hi]
    rfl

/-- Witness for `toggleUIVisibility_first_present`: on a page where only the
two gradient overlays exist (the first shown, the second hidden), a plain
toggle hides both present elements and skips the other fifteen selectors. -/
theorem toggleUIVisibility_first_present_witness :
    toggleUIVisibility
      (fun sel => if sel = ".ytp-gradient-top" ∨ sel = ".ytp-gradient-bottom"
        then some "" else none) false =
      some ((singleIdentificators.map
        (fun sel => if sel = ".ytp-gradient-top" ∨ sel = ".ytp-gradient-bottom"
          then some "" else none)).map (Option.map fun _ => "none")) := by
  have h := toggleUIVisibility_first_present
    (fun sel => if sel = ".ytp-gradient-top" ∨ sel = ".ytp-gradient-bottom"
      then some "" else none) false "" (by decide)
  simpa using h.1

/-- The character `digitChar d` of a decimal digit is a digit character. -/
theorem digitChar_isDigit : ∀ d : ℕ, d < 10 → (digitChar d).isDigit = true := by decide

/-- The character `digitChar d` of a decimal digit is not a colon. -/
theorem digitChar_ne_colon : ∀ d : ℕ, d < 10 → digitChar d ≠ ':' := by decide

/-- Numeric value of a digit character produced by `digitChar`. -/
theorem digitChar_toNat : ∀ d : ℕ, d < 10 → (digitChar d).toNat - 48 = d := by decide

/-- Unfolding `natDigitsRec` below ten. -/
theorem natDigitsRec_lt (n : ℕ) (h : n < 10) : natDigitsRec n = [digitChar n] := by
  rw [natDigitsRec]
  simp [h]

/-- Unfolding `natDigitsRec` at ten or above. -/
theorem natDigitsRec_ge (n : ℕ) (h : ¬ n < 10) :
    natDigitsRec n = natDigitsRec (n / 10) ++ [digitChar (n % 10)] := by
  rw [natDigitsRec]
  simp [h]

/-- With sufficient fuel, the accumulator loop computes `natDigitsRec`. -/
theorem natDigitsAux_eq_rec (fuel : ℕ) : ∀ n acc, n < 10 ^ (fuel + 1) →
    natDigitsAux (fuel + 1) n acc = natDigitsRec n ++ acc := by
  induction fuel with
  | zero =>
    intro n acc hn
    have h10 : n < 10 := by simpa using hn
    rw [natDigitsAux, if_pos h10, natDigitsRec_lt n h10]
    rfl
  | succ fuel ih =>
    intro n acc hn
    by_cases h10 : n < 10
    · rw [natDigitsAux, if_pos h10, natDigitsRec_lt n h10]
      rfl
    · rw [natDigitsAux, if_neg h10]
      have hdiv : n / 10 < 10 ^ (fuel + 1) := by
        have hp : (10 : ℕ) ^ (fuel + 1 + 1) = 10 ^ (fuel + 1) * 10 := by ring
        have := (Nat.div_lt_iff_lt_mul (by omega : 0 < 10)).mpr (by omega : n < 10 ^ (fuel + 1) * 10)
        exact this
      rw [ih (n / 10) _ hdiv, natDigitsRec_ge n h10, List.append_assoc]
      rfl

/-- The fuel `n + 1` used by `natDigits` is always sufficient. -/
theorem natDigits_eq_rec (n : ℕ) : natDigits n = natDigitsRec n := by
  have hlt : n < 10 ^ (n + 1) := by
    rcases Nat.eq_zero_or_pos n with h | h
    · subst h; decide
    · have h1 : n < 10 ^ n := Nat.lt_pow_self (by omega) n
      have h2 : (10 : ℕ) ^ n ≤ 10 ^ (n + 1) := Nat.pow_le_pow_right (by omega) (by omega)
      omega
  have := natDigitsAux_eq_rec n n [] hlt
  simpa [natDigits] using this

/-- Every character of `natDigitsRec` is some `digitChar d`, `d < 10`. -/
theorem natDigitsRec_mem (n : ℕ) : ∀ c ∈ natDigitsRec n, ∃ d, d < 10 ∧ c = digitChar d := by
  induction n using Nat.strong_induction_on with
  | _ n ih =>
    by_cases h : n < 10
    · rw [natDigitsRec_lt n h]
      intro c hc
      simp only [List.mem_singleton] at hc
      exact ⟨n, h, hc⟩
    · rw [natDigitsRec_ge n h]
      intro c hc
      rcases List.mem_append.mp hc with hc | hc
      · exact ih (n / 10) (Nat.div_lt_self (by omega) (by omega)) c hc
      · simp only [List.mem_singleton] at hc
        exact ⟨n % 10, Nat.mod_lt _ (by omega), hc⟩

/-- The digit list `natDigitsRec n` is never empty. -/
theorem natDigitsRec_ne_nil (n : ℕ) : natDigitsRec n ≠ [] := by
  by_cases h : n < 10
  · rw [natDigitsRec_lt n h]; simp
  · rw [natDigitsRec_ge n h]; simp

/-- Folding one more digit onto the value. -/
theorem digitsVal_append_one (l : List Char) (c : Char) :
    digitsVal (l ++ [c]) = digitsVal l * 10 + (c.toNat - 48) := by
  simp [digitsVal, List.foldl_append]

/-- The digit string of `n` evaluates back to `n`. -/
theorem digitsVal_natDigitsRec (n : ℕ) : digitsVal (natDigitsRec n) = n := by
  induction n using Nat.strong_induction_on with
  | _ n ih =>
    by_cases h : n < 10
    · rw [natDigitsRec_lt n h]
      have hd := digitChar_toNat n h
      simp [digitsVal, hd]
    · rw [natDigitsRec_ge n h, digitsVal_append_one,
        ih (n / 10) (Nat.div_lt_self (by omega) (by omega)),
        digitChar_toNat (n % 10) (Nat.mod_lt _ (by omega))]
      have := Nat.div_add_mod n 10
      omega

/-- Leading zero characters do not change the parsed value. -/
theorem digitsVal_replicate_zero (k : ℕ) (l : List Char) :
    digitsVal (List.replicate k '0' ++ l) = digitsVal l := by
  induction k with
  | zero => simp
  | succ k ih =>
    rw [List.replicate_succ, List.cons_append]
    unfold digitsVal
    rw [List.foldl_cons]
    have h0 : 0 * 10 + ('0'.toNat - 48) = 0 := by decide
    rw [h0]
    exact ih

/-- Taking while keeps a list all of whose elements satisfy the predicate. -/
theorem takeWhile_all {p : Char → Bool} (l : List Char) (h : ∀ c ∈ l, p c = true) :
    l.takeWhile p = l := by
  induction l with
  | nil => rfl
  | cons c t ih =>
    rw [List.takeWhile_cons, h c (by simp)]
    exact congrArg (c :: ·) (ih fun x hx => h x (by simp [hx]))

/-- The character list underlying `pad2 n`: padding zeroes then the digits. -/
theorem pad2_toList (n : ℕ) :
    (pad2 n).toList = List.replicate (2 - (natToStr n).length) '0' ++ natDigits n := rfl

/-- Parsing reads a zero-padded two-digit rendering back to its value. -/
theorem jsParseInt_pad2 (n : ℕ) : jsParseInt (pad2 n) = some n := by
  have hall : ∀ c ∈ (pad2 n).toList, c.isDigit = true := by
    rw [pad2_toList]
    intro c hc
    rcases List.mem_append.mp hc with hc | hc
    · rw [List.eq_of_mem_replicate hc]; decide
    · rw [natDigits_eq_rec] at hc
      rcases natDigitsRec_mem n c hc with ⟨d, hd, rfl⟩
      exact digitChar_isDigit d hd
  have hne : (pad2 n).toList ≠ [] := by
    rw [pad2_toList]
    intro hcontra
    rcases List.append_eq_nil.mp hcontra with ⟨-, h2⟩
    rw [natDigits_eq_rec] at h2
    exact natDigitsRec_ne_nil n h2
  unfold jsParseInt
  rw [takeWhile_all _ hall]
  rw [if_neg (by simpa [List.isEmpty_iff] using hne)]
  rw [pad2_toList, digitsVal_replicate_zero, natDigits_eq_rec, digitsVal_natDigitsRec]

/-- No character of `pad2 n` is a colon. -/
theorem pad2_no_colon (n : ℕ) : ∀ c ∈ (pad2 n).toList, c ≠ ':' := by
  rw [pad2_toList]
  intro c hc
  rcases List.mem_append.mp hc with hc | hc
  · rw [List.eq_of_mem_replicate hc]; decide
  · rw [natDigits_eq_rec] at hc
    rcases natDigitsRec_mem n c hc with ⟨d, hd, rfl⟩
    exact digitChar_ne_colon d hd

/-- Padding via `pad2` always renders at least two characters. -/
theorem pad2_length (n : ℕ) : 2 ≤ (pad2 n).length := by
  have : (pad2 n).length = (2 - (natToStr n).length) + (natToStr n).length := by
    simp [pad2, padStart, String.length_append]
  omega

/-- Concatenation of strings concatenates the underlying character lists. -/
theorem strToList_append (a b : String) : (a ++ b).toList = a.toList ++ b.toList := rfl

/-- Rebuilding a string from its character list is the identity. -/
theorem strMk_toList (s : String) : String.mk s.toList = s := rfl

/-- Splitting a separator-free character list yields that single field. -/
theorem splitCharList_no_sep (sep : Char) (l : List Char) (h : ∀ c ∈ l, c ≠ sep) :
    splitCharList sep l = [l] := by
  induction l with
  | nil => rfl
  | cons c t ih =>
    rw [splitCharList, ih fun x hx => h x (by simp [hx])]
    simp [h c (by simp)]

/-- Splitting peels off a separator-free field before a separator. -/
theorem splitCharList_append (sep : Char) (a rest : List Char) (h : ∀ c ∈ a, c ≠ sep) :
    splitCharList sep (a ++ sep :: rest) = a :: splitCharList sep rest := by
  induction a with
  | nil =>
    rw [List.nil_append, splitCharList]
    cases hr : splitCharList sep rest with
    | nil =>
      exfalso
      have : splitCharList sep rest ≠ [] := by
        cases rest with
        | nil => rw [splitCharList]; simp
        | cons x xs =>
          rw [splitCharList]
          cases splitCharList sep xs with
          | nil => simp
          | cons hh tt => by_cases hx : x = sep <;> simp [hx]
      exact this hr
    | cons hh tt => simp
  | cons c a ih =>
    rw [List.cons_append, splitCharList, ih fun x hx => h x (by simp [hx])]
    simp [h c (by simp)]

/-- Splitting three colon-free fields joined by colons. -/
theorem jsSplit_three (f1 f2 f3 : String)
    (h1 : ∀ c ∈ f1.toList, c ≠ ':') (h2 : ∀ c ∈ f2.toList, c ≠ ':')
    (h3 : ∀ c ∈ f3.toList, c ≠ ':') :
    jsSplit (f1 ++ ":" ++ f2 ++ ":" ++ f3) ':' = [f1, f2, f3] := by
  unfold jsSplit
  have hlist : (f1 ++ ":" ++ f2 ++ ":" ++ f3).toList
      = f1.toList ++ ':' :: (f2.toList ++ ':' :: f3.toList) := by
    simp [strToList_append]
  rw [hlist, splitCharList_append _ _ _ h1, splitCharList_append _ _ _ h2,
    splitCharList_no_sep _ _ h3]
  simp [strMk_toList]

/-- Splitting four colon-free fields joined by colons. -/
theorem jsSplit_four (f1 f2 f3 f4 : String)
    (h1 : ∀ c ∈ f1.toList, c ≠ ':') (h2 : ∀ c ∈ f2.toList, c ≠ ':')
    (h3 : ∀ c ∈ f3.toList, c ≠ ':') (h4 : ∀ c ∈ f4.toList, c ≠ ':') :
    jsSplit (f1 ++ ":" ++ f2 ++ ":" ++ f3 ++ ":" ++ f4) ':' = [f1, f2, f3, f4] := by
  unfold jsSplit
  have hlist : (f1 ++ ":" ++ f2 ++ ":" ++ f3 ++ ":" ++ f4).toList
      = f1.toList ++ ':' :: (f2.toList ++ ':' :: (f3.toList ++ ':' :: f4.toList)) := by
    simp [strToList_append]
  rw [hlist, splitCharList_append _ _ _ h1, splitCharList_append _ _ _ h2,
    splitCharList_append _ _ _ h3, splitCharList_no_sep _ _ h4]
  simp [strMk_toList]

/-- Joining a three-element array. -/
theorem jsJoin_three (sep a b c : String) :
    jsJoin sep [a, b, c] = a ++ sep ++ b ++ sep ++ c := by
  show a ++ sep ++ (b ++ sep ++ c) = a ++ sep ++ b ++ sep ++ c
  simp [String.append_assoc]

/-- A string ending in a nonempty suffix is nonempty. -/
theorem append_ne_empty_of_right (x u : String) (hu : u.toList ≠ []) : x ++ u ≠ "" := by
  intro hc
  have := congrArg String.toList hc
  rw [strToList_append] at this
  exact hu (List.append_eq_nil.mp this).2

/-- The converter output is the three zero-padded fields `h`, `m`, `s` joined
by colons, with `h = n / 3600` uncapped. -/
theorem hoursMinutesSeconds_eq (n : ℕ) :
    hoursMinutesSeconds n =
      pad2 (n / 3600) ++ ":" ++ pad2 (n % 3600 / 60) ++ ":" ++ pad2 (n % 60) := by
  have hmod : n % 3600 % 60 = n % 60 := Nat.mod_mod_of_dvd n (by norm_num)
  show jsJoin ":" [padStart (natToStr (n / 3600)) 2 '0',
    padStart (natToStr (n % 3600 / 60)) 2 '0',
    padStart (natToStr (n % 3600 % 60)) 2 '0'] = _
  rw [hmod, jsJoin_three]
  rfl

/-- C10: for every capture at a non-negative time, the visible timestamp
overlay text and the `frame-time` attribute used for export naming are both
derived from the truncated capture time via `hoursMinutesSeconds`, which
returns exactly three colon-separated fields (hours included even when zero
and computed as `n / 3600`, uncapped), each zero-padded to at least two
digits; the `frame-time` attribute is the same three fields joined by
underscores, so it always has the `hh_mm_ss` shape and never a two-field
`mm_ss` shape. -/
theorem frameTime_three_fields (t : ℚ) (ht : 0 ≤ t) :
    ∃ f1 f2 f3 : String,
      timeOverlayText t = f1 ++ ":" ++ f2 ++ ":" ++ f3 ∧
      saveOverlayFrameTime t = f1 ++ "_" ++ f2 ++ "_" ++ f3 ∧
      (jsSplit (timeOverlayText t) ':').length = 3 ∧
      f1 = pad2 (jsTrunc t / 3600) ∧
      f2 = pad2 (jsTrunc t % 3600 / 60) ∧
      f3 = pad2 (jsTrunc t % 60) ∧
      2 ≤ f1.length ∧ 2 ≤ f2.length ∧ 2 ≤ f3.length := by
  refine ⟨pad2 (jsTrunc t / 3600), pad2 (jsTrunc t % 3600 / 60), pad2 (jsTrunc t % 60),
    ?_, ?_, ?_, rfl, rfl, rfl, pad2_length _, pad2_length _, pad2_length _⟩
  · exact hoursMinutesSeconds_eq (jsTrunc t)
  · unfold saveOverlayFrameTime
    rw [hoursMinutesSeconds_eq,
      jsSplit_three _ _ _ (pad2_no_colon _) (pad2_no_colon _) (pad2_no_colon _),
      jsJoin_three]
  · unfold timeOverlayText
    rw [hoursMinutesSeconds_eq,
      jsSplit_three _ _ _ (pad2_no_colon _) (pad2_no_colon _) (pad2_no_colon _)]
    rfl

/-- Witness for `frameTime_three_fields` at capture time `3723.9` seconds:
the attribute is `01_02_03`. -/
theorem frameTime_three_fields_witness :
    (0 : ℚ) ≤ 37239 / 10 ∧ saveOverlayFrameTime (37239 / 10) = "01_02_03" := by
  obtain ⟨f1, f2, f3, -, h2, -, hf1, hf2, hf3, -⟩ :=
    frameTime_three_fields (37239 / 10) (by norm_num)
  refine ⟨by norm_num, ?_⟩
  have hj : jsTrunc (37239 / 10 : ℚ) = 3723 := by
    unfold jsTrunc
    have hfl : ⌊(37239 : ℚ) / 10⌋ = 3723 := by
      rw [Int.floor_eq_iff] <;> norm_num
    rw [hfl]
    rfl
  rw [h2, hf1, hf2, hf3, hj]
  decide

/-- C7, counterexample: on the claim's own input `"01:03:00:12"` the code
yields `"1d 3h 12s"`, dropping the *internal* zero-valued minutes field as
well; under the claim's rule — only zero-valued *leading* units omitted —
the output would be `"1d 3h 0m 12s"`.  The two disagree. -/
theorem formatDuration_internal_zero_dropped :
    formatDurationTime "01:03:00:12" = some "1d 3h 12s" ∧
    formatDurationLeadingOnly "01:03:00:12" = "1d 3h 0m 12s" ∧
    ("1d 3h 12s" : String) ≠ "1d 3h 0m 12s" :=
  ⟨rfl, rfl, by decide⟩

/-- C7, amended: for a four-field `dd:hh:mm:ss` duration string the
formatter emits the value–unit pairs with units `d`,`h`,`m`,`s` in descending
order, joined by single spaces, with *every* zero-valued unit omitted —
leading or internal — and each kept value printed without leading zeroes. -/
theorem formatDurationTime_units (d h m s : ℕ) :
    formatDurationTime (pad2 d ++ ":" ++ pad2 h ++ ":" ++ pad2 m ++ ":" ++ pad2 s) =
      some (jsJoin " "
        ((if d ≠ 0 then [natToStr d ++ "d"] else []) ++
         (if h ≠ 0 then [natToStr h ++ "h"] else []) ++
         (if m ≠ 0 then [natToStr m ++ "m"] else []) ++
         (if s ≠ 0 then [natToStr s ++ "s"] else []))) := by
  have hne : pad2 d ++ ":" ++ pad2 h ++ ":" ++ pad2 m ++ ":" ++ pad2 s ≠ "" := by
    apply append_ne_empty_of_right
    intro hc
    have hlen : (pad2 s).length = 0 := by
      rw [show (pad2 s).length = (pad2 s).toList.length from rfl, hc]
      rfl
    have := pad2_length s
    omega
  have hsplit := jsSplit_four (pad2 d) (pad2 h) (pad2 m) (pad2 s)
    (pad2_no_colon d) (pad2_no_colon h) (pad2_no_colon m) (pad2_no_colon s)
  have hdu : natToStr d ++ "d" ≠ "" := append_ne_empty_of_right _ _ (by decide)
  have hhu : natToStr h ++ "h" ≠ "" := append_ne_empty_of_right _ _ (by decide)
  have hmu : natToStr m ++ "m" ≠ "" := append_ne_empty_of_right _ _ (by decide)
  have hsu : natToStr s ++ "s" ≠ "" := append_ne_empty_of_right _ _ (by decide)
  unfold formatDurationTime
  rw [if_neg hne]
  simp only [hsplit, List.length_cons, List.length_nil, List.reverse_cons, List.reverse_nil,
    List.nil_append, List.cons_append, List.enum, List.enumFrom, List.map_cons, List.map_nil,
    jsParseInt_pad2, timeUnitNames]
  norm_num
  by_cases hd : d = 0 <;> by_cases hh : h = 0 <;> by_cases hm : m = 0 <;> by_cases hs : s = 0 <;>
    simp [hd, hh, hm, hs, hdu, hhu, hmu, hsu, jsJoin]

/-- C9: the save file name is the video title joined with the entry's
`frame-time` attribute — underscores replaced by dashes — by `" - "`, with
every whitespace character of the combined string replaced by an underscore
and `.png` appended; this agrees with the claim's formula, and in particular
title `"My Video"` with attribute `"01_02"` yields `My_Video_-_01-02.png`. -/
theorem getImageName_matches_spec (title ft : String) (hft : ft ≠ "") :
    getImageName title (some ft) = specFileName title ft ∧
    getImageName "My Video" (some "01_02") = "My_Video_-_01-02.png" := by
  refine ⟨?_, by decide⟩
  simp [getImageName, specFileName, hft]

/-- Witness for `getImageName_matches_spec` at the claim's example. -/
theorem getImageName_matches_spec_witness :
    getImageName "My Video" (some "01_02") = "My_Video_-_01-02.png" :=
  (getImageName_matches_spec "My Video" "01_02" (by decide)).2

/-- C8, counterexample: a capture at the fractional time `12.5` s (with the
random draw coming out all-`A`) produces an entry whose DOM id embeds the
raw time `12.5`, not the truncated `12`; and a second capture with the same
draw and time yields a second entry with the *same* id in the same strip, so
ids are neither built from the truncated timestamp nor guaranteed unique. -/
theorem entryId_raw_time_and_collision :
    generateElementId 6 (fun _ => ⟨0, by decide⟩) = "AAAAAA" ∧
    ((captureEntries (runCaptures "ThRnd2" 480 initialSession
        [⟨⟨1920, 1080, 640, 25 / 2⟩, false, "AAAAAA"⟩,
         ⟨⟨1920, 1080, 640, 25 / 2⟩, false, "AAAAAA"⟩])).map entryId =
          [("AAAAAA", 25 / 2), ("AAAAAA", 25 / 2)] ∧
      ¬ ((captureEntries (runCaptures "ThRnd2" 480 initialSession
        [⟨⟨1920, 1080, 640, 25 / 2⟩, false, "AAAAAA"⟩,
         ⟨⟨1920, 1080, 640, 25 / 2⟩, false, "AAAAAA"⟩])).map entryId).Nodup) ∧
    (25 / 2 : ℚ) ≠ ((jsTrunc (25 / 2 : ℚ) : ℕ) : ℚ) := by
  have h1 : (captureEntries (runCaptures "ThRnd2" 480 initialSession
      [⟨⟨1920, 1080, 640, 25 / 2⟩, false, "AAAAAA"⟩,
       ⟨⟨1920, 1080, 640, 25 / 2⟩, false, "AAAAAA"⟩])).map entryId =
        [("AAAAAA", (25 : ℚ) / 2), ("AAAAAA", (25 : ℚ) / 2)] := rfl
  refine ⟨by decide, ⟨h1, ?_⟩, ?_⟩
  · rw [h1]
    intro hnd
    exact (List.nodup_cons.mp hnd).1 (List.mem_singleton.mpr rfl)
  · have hj : jsTrunc (25 / 2 : ℚ) = 12 := by
      unfold jsTrunc
      have hfl : ⌊(25 : ℚ) / 2⌋ = 12 := by
        rw [Int.floor_eq_iff] <;> norm_num
      rw [hfl]
      rfl
    rw [hj]
    norm_num

/-- C8, amended: every appended entry's DOM id is built from that append's
freshly drawn random identifier together with the frame's *raw* (possibly
fractional) timestamp; uniqueness is not checked by the code and holds
exactly when the random draws of a session collide on no two appends — under
pairwise-distinct draws all entry ids in the strip are pairwise distinct. -/
theorem entryId_structure_unique_if_draws_distinct (thumbRand : String) (thumbWidth : ℕ)
    (reqs : List Request)
    (hsucc : ∀ r ∈ reqs, (captureFrame r.v r.isResized).width ≠ 0)
    (hdistinct : (reqs.map Request.rand).Nodup) :
    (∀ r ∈ reqs, entryId (entryOfRequest r) = (r.rand, (captureFrame r.v r.isResized).time)) ∧
    ((captureEntries (runCaptures thumbRand thumbWidth initialSession reqs)).map entryId).Nodup := by
  constructor
  · intro r _
    rfl
  · rw [captureEntries_runCaptures thumbRand thumbWidth reqs hsucc, List.map_map]
    have hfst : (reqs.map (entryId ∘ entryOfRequest)).map Prod.fst = reqs.map Request.rand := by
      rw [List.map_map]
      rfl
    exact List.Nodup.of_map Prod.fst (by rw [hfst]; exact hdistinct)

/-- Witness for `entryId_structure_unique_if_draws_distinct`: two captures
with distinct draws give distinct strip ids. -/
theorem entryId_structure_witness :
    ((captureEntries (runCaptures "ThRnd3" 480 initialSession
      [⟨⟨1920, 1080, 640, 7⟩, false, "RndC03"⟩,
       ⟨⟨1920, 1080, 640, 7⟩, false, "RndD04"⟩])).map entryId).Nodup := by
  have h := entryId_structure_unique_if_draws_distinct "ThRnd3" 480
    [⟨⟨1920, 1080, 640, 7⟩, false, "RndC03"⟩, ⟨⟨1920, 1080, 640, 7⟩, false, "RndD04"⟩]
    (by intro r hr; fin_cases hr <;> decide) (by decide)
  exact h.2

end YtGr4
